import Mathlib

/-
Verification of the particle-trajectory reconstruction, collision detection
and exponential-growth fitting engine of the Simulia_Multipactor library.

Shallow embedding conventions:
- Machine floats are modelled as rationals (ℚ); the claims under study are
  structural (control flow, ordering, array shapes, which value feeds which
  computation), not about floating-point rounding.
- NumPy arrays become Lean lists; a cell that the code fills with NaN is
  modelled as `none` in a `List (Option ℚ)` (or `Option Vec3`).
- Python exceptions become an `Except PyError` result; each constructor of
  `PyError` names the Python exception class it stands for.
- External collaborators (scipy's curve_fit and uniform_filter1d, numpy's
  polyfit, the vedo mesh intersection routine, np.log / np.exp) are taken as
  function parameters: the claims quantify over them or do not depend on them.
- Python object attributes that may be unset (never assigned) are modelled as
  `Option` fields holding `none`; reading such a field raises AttributeError,
  exactly like CPython does.
-/

set_option linter.unusedVariables false

attribute [local semireducible] Rat.sub Rat.add Rat.mul Rat.inv

namespace Simultipac

/-- Python exception classes raised (or raisable) by the embedded code. -/
inductive PyError where
  | valueError (msg : String)
  | attributeError (attr : String)
  | indexError
  | assertionError
  | notImplementedError (msg : String)
  | shapeMismatch (timeLen popLen : Nat)
  | osError (msg : String)
deriving Repr, DecidableEq

/-- Vector in 3-space with rational coordinates (one row of an (n, 3) array). -/
structure Vec3 where
  x : ℚ
  y : ℚ
  z : ℚ
deriving Repr, DecidableEq

/-- Componentwise addition of 3-vectors. -/
def Vec3.add (a b : Vec3) : Vec3 := ⟨a.x + b.x, a.y + b.y, a.z + b.z⟩

/-- Scalar multiplication of a 3-vector. -/
def Vec3.smul (c : ℚ) (a : Vec3) : Vec3 := ⟨c * a.x, c * a.y, c * a.z⟩

/-- Squared Euclidean norm of a 3-vector (`np.linalg.norm(v) ** 2`, exact). -/
def Vec3.normSq (a : Vec3) : ℚ := a.x * a.x + a.y * a.y + a.z * a.z

/-- Zero vector, used as an out-of-bounds default that is never reached. -/
def Vec3.zero : Vec3 := ⟨0, 0, 0⟩

/-- Speed of light in m/s (`constants.clight = 299_792_458.0`). -/
def clight : ℚ := 299792458

/-- Speed of light in mm/ns (`constants.clight_in_mm_per_ns = clight * 1e-6`). -/
def clightInMmPerNs : ℚ := clight * (1 / 1000000)

/-- Elementary charge (`constants.qelem = 1.6021766e-19`). -/
def qelem : ℚ := 16021766 / 10 ^ 26

/-- Conversion `converters.adim_momentum_to_speed_mm_per_ns`: speed in mm/ns is
the adimensional momentum times the speed of light in mm/ns. -/
def adimMomentumToSpeedMmPerNs (mom : Vec3) : Vec3 :=
  Vec3.smul clightInMmPerNs mom

/-- Conversion `converters.adim_momentum_to_eV`:
`0.5 * np.linalg.norm(mom) ** 2 * mass_eV`, exact on rationals since only the
square of the norm is used. -/
def adimMomentumToEV (mom : Vec3) (massEV : ℚ) : ℚ :=
  (1 / 2) * mom.normSq * massEV

/-- Record `particle.PartMonData`: one parsed line of a CST ParticleMonitor
file, fields in source order (position, momentum, mass, charge, macro-charge,
time, particle id, source id). -/
structure RawRecord where
  posx : ℚ
  posy : ℚ
  posz : ℚ
  momx : ℚ
  momy : ℚ
  momz : ℚ
  mass : ℚ
  charge : ℚ
  mcharge : ℚ
  time : ℚ
  particleId : Int
  sourceId : Int
deriving Repr, DecidableEq

/-- State of `particle.Particle` (current `src/simultipac` version) during the
accumulation phase.  The private list attributes mirror `_posx` ... `_time`.
`timeAttr` models the *dynamic attribute* `self.time`: the class docstring
documents it, but `__init__` and `add_a_file` only ever assign `self._time`,
so `timeAttr` is `none` for every particle built by this code path. -/
structure ParticleAcc where
  posx : List ℚ
  posy : List ℚ
  posz : List ℚ
  momx : List ℚ
  momy : List ℚ
  momz : List ℚ
  masses : List ℚ
  charges : List ℚ
  mcharge : List ℚ
  timeRaw : List ℚ
  particleId : Int
  sourceId : Int
  timeAttr : Option (List ℚ)
deriving Repr, DecidableEq

/-- Constructor `Particle.__init__`: seed every per-step list with the single
record's value; `self.time` is never assigned (only `self._time` is). -/
def mkParticle (r : RawRecord) : ParticleAcc :=
  ⟨[r.posx], [r.posy], [r.posz], [r.momx], [r.momy], [r.momz],
   [r.mass], [r.charge], [r.mcharge], [r.time], r.particleId, r.sourceId, none⟩

/-- Method `Particle.add_a_file`: append one record to every per-step list
(`self._time` again; the dynamic attribute `self.time` stays unset). -/
def addAFile (p : ParticleAcc) (r : RawRecord) : ParticleAcc :=
  ⟨p.posx ++ [r.posx], p.posy ++ [r.posy], p.posz ++ [r.posz],
   p.momx ++ [r.momx], p.momy ++ [r.momy], p.momz ++ [r.momz],
   p.masses ++ [r.mass], p.charges ++ [r.charge],
   p.mcharge ++ [r.mcharge], p.timeRaw ++ [r.time],
   p.particleId, p.sourceId, p.timeAttr⟩

/-- Helper `particle._get_constant`: `asarray[0]` of an empty list is an
IndexError; otherwise raise a bare `ValueError` (no message) unless all
entries equal the first, and return the first entry. -/
def getConstant (vals : List ℚ) : Except PyError ℚ :=
  match vals with
  | [] => .error .indexError
  | v :: vs =>
      if vs.all (fun e => decide (e = v)) then .ok v
      else .error (.valueError "")

/-- Helper `particle._is_sorted`: `(array == np.sort(array)).all()`, i.e. the
array is pairwise non-decreasing. -/
def isSortedQ : List ℚ → Bool
  | [] => true
  | [_] => true
  | a :: b :: rest => decide (a ≤ b) && isSortedQ (b :: rest)

/-- Helper modelling `np.column_stack((xs, ys, zs))` for three equal-length
1-D arrays. -/
def columnStack3 (xs ys zs : List ℚ) : List Vec3 :=
  List.zipWith (fun x yz => ⟨x, yz.1, yz.2⟩) xs (List.zip ys zs)

/-- Read of the dynamic attribute `self.time` performed by
`Particle._some_values_to_array` (`self.time = np.array(self.time)`): CPython
raises `AttributeError` because no assignment to `self.time` ever ran. -/
def readTimeAttr (p : ParticleAcc) : Except PyError (List ℚ) :=
  match p.timeAttr with
  | none => .error (.attributeError "time")
  | some t => .ok t

/-- Result of a successful `Particle.finalize` (never produced by the current
code path, see `readTimeAttr` and `sortByIncreasingTime`). -/
structure FinalizedParticle where
  mass : ℚ
  massEV : ℚ
  charge : ℚ
  pos : List Vec3
  mom : List Vec3
  time : List ℚ
  mcharge : List ℚ
  particleId : Int
  sourceId : Int
deriving Repr, DecidableEq

/-- Method `Particle._sort_by_increasing_time_values`.  Its third statement is
`self.macro_charge = self.macro_charge[idx]`, but `macro_charge` is a
getter-only `@property` of the same class, so CPython raises
`AttributeError: can't set attribute` unconditionally (the permutations of
`pos` and `mom` performed by the first two statements are unobservable,
as the exception propagates out of `finalize`). -/
def sortByIncreasingTime (p : FinalizedParticle) : Except PyError FinalizedParticle :=
  .error (.attributeError "can't set attribute macro_charge")

/-- Method `Particle.finalize` of the current `src/simultipac` version,
statement by statement: `_check_constanteness_of_some_attributes`, then
`_some_values_to_array` (which reads the unset `self.time`), then
`_switch_to_mm_ns_units`, then the conditional sort. -/
def finalize (p : ParticleAcc) : Except PyError FinalizedParticle := do
  let mass ← getConstant p.masses
  let massEV := mass * clight ^ 2 / qelem
  let charge ← getConstant p.charges
  let pos := columnStack3 p.posx p.posy p.posz
  let mom := columnStack3 p.momx p.momy p.momz
  let time ← readTimeAttr p
  let pos := pos.map (Vec3.smul 1000)
  let time := time.map (fun t => t * 10 ^ 18)
  let result : FinalizedParticle :=
    ⟨mass, massEV, charge, pos, mom, time, p.mcharge, p.particleId, p.sourceId⟩
  if isSortedQ time then .ok result
  else sortByIncreasingTime result

/-- Record at t = 2 (raw units) for particle 7. -/
def sampleRecordA : RawRecord := ⟨0, 0, 0, 0, 0, 1, 1, -1, 1, 2, 7, 0⟩

/-- Record at t = 1 (raw units) for particle 7, out of chronological order. -/
def sampleRecordB : RawRecord := ⟨0, 0, 1, 0, 0, 1, 1, -1, 1, 1, 7, 0⟩

/-- Record at t = 1 for particle 7 with a different mass (2 instead of 1). -/
def sampleRecordBadMass : RawRecord := ⟨0, 0, 1, 0, 0, 1, 2, -1, 1, 1, 7, 0⟩

/-- Particle assembled from a list of records: `Particle(first)` followed by
`add_a_file` for each further record, as `ParticleMonitor.__init__` does for
records sharing one particle id. -/
def buildParticle (r : RawRecord) (rs : List RawRecord) : ParticleAcc :=
  rs.foldl addAFile (mkParticle r)

/-- Python built-in `max` over a list (`max([...])`): raises
`ValueError: max() arg is an empty sequence` on an empty argument. -/
def pyMax (l : List ℚ) : Except PyError ℚ :=
  match l with
  | [] => .error (.valueError "max() arg is an empty sequence")
  | x :: xs => .ok (xs.foldl max x)

/-- Dispatch of one parsed record inside `ParticleMonitor.__init__`: append to
the existing `Particle` with this id, else create a new one.  The Python dict
preserves insertion order, hence the list model. -/
def addRecord (parts : List ParticleAcc) (r : RawRecord) : List ParticleAcc :=
  if parts.any (fun p => p.particleId == r.particleId) then
    parts.map (fun p => if p.particleId == r.particleId then addAFile p r else p)
  else parts ++ [mkParticle r]

/-- Executable absolute value on ℚ (`np.abs` / built-in `abs`). -/
def absQ (q : ℚ) : ℚ := if q < 0 then -q else q

/-- Tolerance test of `Particle.determine_if_alive_at_end`:
`abs(max_time - self.time[-1]) < tol` with the default `tol = 1e-6`. -/
def determineIfAliveAtEnd (maxTime tLast : ℚ) : Bool :=
  decide (absQ (maxTime - tLast) < 1 / 10 ^ 6)

/-- One entry of the finished `ParticleMonitor` dictionary. -/
structure MonitorEntry where
  particle : FinalizedParticle
  aliveAtEnd : Bool
deriving Repr, DecidableEq

/-- Constructor `ParticleMonitor.__init__` after parsing: group the records by
particle id, finalize and extrapolate every particle, then compute
`self.max_time = max([part.time[-1] for part in self.values()])` (unguarded)
and set the alive-at-end flags.  The extrapolation step
(`extrapolate_pos_and_mom_one_time_step_further`) only mutates derived fields,
so it is abstracted as an effectful argument `extra`. -/
def mkParticleMonitor (extra : FinalizedParticle → Except PyError Unit)
    (records : List RawRecord) : Except PyError (List MonitorEntry × ℚ) := do
  let accs := records.foldl addRecord []
  let finals ← accs.mapM (fun p => do
    let f ← finalize p
    let _ ← extra f
    pure f)
  let lasts ← finals.mapM (fun f =>
    match f.time.getLast? with
    | none => Except.error PyError.indexError
    | some t => Except.ok t)
  let maxTime ← pyMax lasts
  let entries := finals.map (fun f =>
    MonitorEntry.mk f (determineIfAliveAtEnd maxTime (f.time.getLastD 0)))
  pure (entries, maxTime)

/-- Helper modelling `np.linspace(a, b, n)` (exact for the sampled points). -/
def linspace (a b : ℚ) (n : Nat) : List ℚ :=
  match n with
  | 0 => []
  | 1 => [a]
  | m + 2 => (List.range (m + 2)).map (fun i => a + (b - a) * i / (m + 1))

/-- Helper `particle._extrapolate_position`: start every row from `last_pos`
(`np.full((n, 3), last_pos)`) and add `last_speed * desired_time[i]`, where
`last_speed = adim_momentum_to_speed_mm_per_ns(last_mom)[0]`. -/
def extrapolatePosition (lastPos lastMom : Vec3) (desiredTime : List ℚ) :
    List Vec3 :=
  desiredTime.map (fun t =>
    Vec3.add lastPos (Vec3.smul t (adimMomentumToSpeedMmPerNs lastMom)))

/-- Extrapolated state of a particle: the three arrays that
`extrapolate_pos_and_mom_one_time_step_further` assigns (`none` models a NaN
fill, i.e. an unset value). -/
structure Extrapolated where
  times : List (Option ℚ)
  pos : List (Option Vec3)
  mom : List (Option Vec3)
deriving Repr, DecidableEq

/-- Method `Particle.extrapolate_pos_and_mom_one_time_step_further`, modelled
at unit level as a function of the particle's finalized `time`, `pos`, `mom`
arrays.  Constants from the source: `n_extrapolated_points = 2`,
`n_extrapolated_time_steps = 10`, `n_time_steps_for_polynom_fitting = 3`,
`poly_fit_deg = 2`.  The degree-2 polynomial fit of `_extrapolate_momentum`
delegates to `np.polyfit`, an external routine taken as the parameter
`polyfit` (known times, known momenta, degree, desired times). -/
def extrapolateOneStep
    (polyfit : List ℚ → List Vec3 → Nat → List ℚ → List Vec3)
    (time : List ℚ) (pos mom : List Vec3) : Except PyError Extrapolated :=
  let nanTimes : List (Option ℚ) := [none, none]
  let nanVecs : List (Option Vec3) := [none, none]
  if time.length ≤ 1 then .ok ⟨nanTimes, nanVecs, nanVecs⟩
  else
    match time.getLast?, pos.getLast?, mom.getLast? with
    | some fitEnd, some lastPos, some lastMom =>
      let timeStep := fitEnd - time.getD (time.length - 2) 0
      let extrapolatedTimes := linspace fitEnd (fitEnd + 10 * timeStep) 2
      let extrapolatedPos := extrapolatePosition lastPos lastMom
        (extrapolatedTimes.map (fun t => t - fitEnd))
      if (2 : Nat) ≥ 3 then
        .error (.osError "You need at least 3 momentum and time step(s)")
      else if 3 > time.length then
        .ok ⟨extrapolatedTimes.map some, extrapolatedPos.map some, nanVecs⟩
      else
        let knownTime := time.drop (time.length - 3)
        let knownMom := mom.drop (mom.length - 3)
        let extrapolatedMom := polyfit knownTime knownMom 2 extrapolatedTimes
        .ok ⟨extrapolatedTimes.map some, extrapolatedPos.map some,
             extrapolatedMom.map some⟩
    | _, _, _ => .error .indexError

/-- State of a particle as `Particle.find_collision` reads it. -/
structure TrackedParticle where
  pos : List Vec3
  aliveAtEnd : Bool
  extrapolatedPos : Option (List Vec3)
  particleId : Int
deriving Repr, DecidableEq

/-- Collision fields written by `Particle.find_collision` (starting from the
empty arrays set by `__init__`), together with the trace of segments passed to
`mesh.intersect_with_line`, in call order. -/
structure CollisionOutcome where
  cellId : List Nat
  point : List Vec3
  queries : List (Vec3 × Vec3)
deriving Repr, DecidableEq

/-- Tail of `Particle.find_collision` after the intersection attempts:
return-and-log when no collision point was found (and warnings are on),
keep only the first intersection when several were found, then assign the
collision fields. -/
def finishCollision (warnNoCollision : Bool) (queries : List (Vec3 × Vec3))
    (res : List Vec3 × List Nat) : Except PyError CollisionOutcome :=
  if warnNoCollision && res.1.isEmpty then .ok ⟨[], [], queries⟩
  else
    match res.1, res.2 with
    | pt :: _ :: _, c :: _ => .ok ⟨[c], [pt], queries⟩
    | pt :: _ :: _, [] => .error .indexError
    | pts, cells => .ok ⟨cells, pts, queries⟩

/-- Method `Particle.find_collision`.  The vedo mesh is external: the
parameter `intersect` stands for `mesh.intersect_with_line(p0, p1,
return_ids=True, tol=0)` and returns the intersection points and cell ids.
Control flow from the source: skip when alive at end or when fewer than two
recorded positions; primary segment from the last recorded position to the
last extrapolated position (`assert self.extrapolated_pos is not None`);
if it yields zero intersections, return when `self.pos.shape[0] <= 2`, else
retry with the segment from `self.pos[-2]` to `self.pos[-1]`. -/
def findCollision (intersect : Vec3 → Vec3 → List Vec3 × List Nat)
    (warnNoCollision : Bool) (p : TrackedParticle) :
    Except PyError CollisionOutcome :=
  if p.aliveAtEnd then .ok ⟨[], [], []⟩
  else if p.pos.length ≤ 1 then .ok ⟨[], [], []⟩
  else
    match p.pos.getLast? with
    | none => .error .indexError
    | some p0 =>
      match p.extrapolatedPos with
      | none => .error .assertionError
      | some ep =>
        match ep.getLast? with
        | none => .error .indexError
        | some p1 =>
          let res1 := intersect p0 p1
          if res1.1.isEmpty then
            if p.pos.length ≤ 2 then .ok ⟨[], [], [(p0, p1)]⟩
            else
              let q0 := p.pos.getD (p.pos.length - 2) Vec3.zero
              finishCollision warnNoCollision [(p0, p1), (q0, p0)]
                (intersect q0 p0)
          else finishCollision warnNoCollision [(p0, p1)] res1

/-- Helper modelling `np.where(arr)[0][-1]`: index of the last nonzero entry
(via the ascending index list `np.where` produces), `none` when there is no
nonzero entry (so that `[0][-1]` would raise IndexError). -/
def lastNonzeroIdx (arr : List ℚ) : Option Nat :=
  ((List.range arr.length).filter (fun i => decide (arr.getD i 0 ≠ 0))).getLast?

/-- Helper modelling `np.argmin(np.abs(arr - target))`: first index of a
minimal absolute deviation (np.argmin keeps the first occurrence). -/
def argminAbs (arr : List ℚ) (target : ℚ) : Nat :=
  (List.range arr.length).foldl
    (fun best i =>
      if absQ (arr.getD i 0 - target) < absQ (arr.getD best 0 - target) then i
      else best)
    0

/-- Clamp of the initial N0 guess against the lower optimizer bound
(`bounds[0][0] = 1e-10`) done in `_fit_single` before calling `curve_fit`. -/
def clampN0 (v : ℚ) : ℚ :=
  if v < 1 / 10 ^ 10 then 1 / 10 ^ 10 else v

/-- Result of `exp_growth._fit_single`: the modelled curve (time column plus
an Option population column, `none` = NaN), the returned fit parameters
`(N0, alpha, t_start)` (`none` = the function returned `None`; inner `none`
components = NaN from a failed optimization), and the initial guess `p0`
passed to `curve_fit` (`none` when the fit was skipped before the call). -/
structure FitSingleResult where
  modelled : List (ℚ × Option ℚ)
  fitParams : Option ((Option ℚ × Option ℚ) × ℚ)
  p0 : Option (ℚ × ℚ)
deriving Repr, DecidableEq

/-- Function `exp_growth._fit_single` for the `"classic"` model
(`_select_model`: bounds `N0 ∈ [1e-10, ∞)`, `alpha ∈ [-10, 10]`, initial
values `[None, -9.0]`).  External collaborators are parameters: `curveFit`
stands for `scipy.optimize.curve_fit` (`none` models the OptimizeWarning
branch where the parameters become NaN), `smoothLog` for
`scipy.ndimage.uniform_filter1d`, `logQ` / `expQ` for `np.log` / `np.exp`.
Control flow from the source: skip (return `modelled, None`) when
`skip_obvious` and the final population is below 10; `idx_end` = last index
with nonzero population; `t_start = data[idx_end, 0] - fitting_range`;
`idx_start` = index of the time sample nearest `t_start`; build the log
window; optionally smooth its second column; set the initial `N0` guess to
`data_to_fit[0, 0]` clamped to the lower bound; fit; write the modelled
values over the fit window. -/
def fitSingle (curveFit : List (ℚ × ℚ) → ℚ × ℚ → Option (ℚ × ℚ))
    (smoothLog : List ℚ → Nat → List ℚ) (logQ expQ : ℚ → ℚ)
    (data : List (ℚ × ℚ)) (period fittingRange : ℚ)
    (runningMean skipObvious : Bool) : Except PyError FitSingleResult :=
  match data.getLast? with
  | none => .error .indexError
  | some lastRow =>
    if skipObvious && decide (lastRow.2 < 10) then
      .ok ⟨data.map (fun r => (r.1, none)), none, none⟩
    else
      match lastNonzeroIdx (data.map (fun r => r.2)) with
      | none => .error .indexError
      | some idxEnd =>
        let tStart := (data.getD idxEnd (0, 0)).1 - fittingRange
        let idxStart := argminAbs (data.map (fun r => r.1)) tStart
        let window := (data.drop idxStart).take (idxEnd + 1 - idxStart)
        let dataToFitLog := window.map (fun r => (r.1, logQ r.2))
        let dataToFit :=
          if runningMean then
            let iWidth := argminAbs (data.map (fun r => r.1)) period
            List.zip (dataToFitLog.map (fun r => r.1))
              (smoothLog (dataToFitLog.map (fun r => r.2)) iWidth)
          else dataToFitLog
        match dataToFit with
        | [] => .error .indexError
        | firstRow :: rest =>
          let p0 := (clampN0 firstRow.1, (-9 : ℚ))
          let result := curveFit (firstRow :: rest) p0
          let modelVal : ℚ → Option ℚ :=
            match result with
            | none => fun _ => none
            | some ab => fun t => some (ab.1 * expQ (ab.2 * t))
          let modelled := data.mapIdx (fun i r =>
            (r.1, if idxStart ≤ i ∧ i ≤ idxEnd then modelVal r.1 else none))
          let params :=
            match result with
            | none => ((none, none), tStart)
            | some ab => ((some ab.1, some ab.2), tStart)
          .ok ⟨modelled, some params, some p0⟩

/-- Modelled from the spec: the claimed initial guess for `N0` — "the first
(possibly smoothed) log-population sample's corresponding population value,
clamped to the lower bound if below it" — computed over the same fit window
as `_fit_single`, for an unsmoothed fit.  Defined only to compare the claim
against the code, which uses `data_to_fit[0, 0]` instead. -/
def specInitialN0 (data : List (ℚ × ℚ)) (fittingRange : ℚ) : Option ℚ :=
  match lastNonzeroIdx (data.map (fun r => r.2)) with
  | none => none
  | some idxEnd =>
    let tStart := (data.getD idxEnd (0, 0)).1 - fittingRange
    let idxStart := argminAbs (data.map (fun r => r.1)) tStart
    match (data.drop idxStart).take (idxEnd + 1 - idxStart) with
    | [] => none
    | firstRow :: _ => some (clampN0 firstRow.2)

/-- Finalized data of `simulation_results.SimulationResults`. -/
structure SimResultsData where
  time : List ℚ
  population : List ℚ
deriving Repr, DecidableEq

/-- Method `SimulationResults._trim_trailing`:
`idx_to_remove = np.argwhere(self.population == 0.0)` (ascending indices);
return unchanged if empty, else cut both arrays before the first zero. -/
def trimTrailing (time population : List ℚ) : List ℚ × List ℚ :=
  match (List.range population.length).filter
      (fun i => decide (population.getD i 0 = 0)) with
  | [] => (time, population)
  | i :: _ => (time.take i, population.take i)

/-- Constructor `SimulationResults.__init__` restricted to the fields the
claims touch: store `time` and `population`, run
`_check_consistent_shapes` (equal 1-D lengths, else `ShapeMismatchError`),
then `_trim_trailing` when `trim_trailing` is set. -/
def mkSimulationResults (time population : List ℚ) (trimFlag : Bool) :
    Except PyError SimResultsData :=
  if time.length = population.length then
    if trimFlag then
      let tp := trimTrailing time population
      .ok ⟨tp.1, tp.2⟩
    else .ok ⟨time, population⟩
  else .error (.shapeMismatch time.length population.length)

/-- State of a finalized particle as `ParticleMonitor.collision_energies`
reads it. -/
structure MonitorParticle where
  mom : List Vec3
  massEV : ℚ
  sourceId : Int
  aliveAtEnd : Bool
deriving Repr, DecidableEq

/-- Method `Particle.collision_energy`: raise NotImplementedError when
`extrapolation` is True, else the energy from the last momentum sample:
`adim_momentum_to_eV(self.mom[-1], self.mass_eV)`. -/
def collisionEnergy (p : MonitorParticle) (extrapolation : Bool) :
    Except PyError ℚ :=
  if extrapolation then
    .error (.notImplementedError
      "TODO: extrapolation of on last time  steps for better precision.")
  else
    match p.mom.getLast? with
    | none => .error .indexError
    | some m => .ok (adimMomentumToEV m p.massEV)

/-- Subset selection of `ParticleMonitor.collision_energies`: filter by
source id when given, then drop particles alive at end when requested
(`_filter_source_id` and `_filter_out_alive_at_end`). -/
def energySubset (parts : List MonitorParticle) (sourceId : Option Int)
    (removeAliveAtEnd : Bool) : List MonitorParticle :=
  let s := match sourceId with
    | none => parts
    | some sid => parts.filter (fun p => p.sourceId == sid)
  if removeAliveAtEnd then s.filter (fun p => !p.aliveAtEnd) else s

/-- Method `ParticleMonitor.collision_energies`: one `collision_energy` call
per particle of the subset, in order; the first raised exception
propagates. -/
def collisionEnergies (parts : List MonitorParticle) (sourceId : Option Int)
    (extrapolation removeAliveAtEnd : Bool) : Except PyError (List ℚ) :=
  (energySubset parts sourceId removeAliveAtEnd).mapM
    (fun p => collisionEnergy p extrapolation)

theorem except_bind_ok {α β : Type} (a : α) (f : α → Except PyError β) :
    (Except.ok a >>= f) = f a := rfl

theorem except_bind_err {α β : Type} (e : PyError) (f : α → Except PyError β) :
    ((Except.error e : Except PyError α) >>= f) = .error e := rfl

theorem foldl_addAFile_masses (rs : List RawRecord) (p : ParticleAcc) :
    (rs.foldl addAFile p).masses = p.masses ++ rs.map RawRecord.mass := by
  induction rs generalizing p with
  | nil => simp
  | cons r rs ih =>
      simp only [List.foldl_cons, List.map_cons, ih, addAFile,
        List.append_assoc, List.cons_append, List.nil_append]

theorem foldl_addAFile_charges (rs : List RawRecord) (p : ParticleAcc) :
    (rs.foldl addAFile p).charges = p.charges ++ rs.map RawRecord.charge := by
  induction rs generalizing p with
  | nil => simp
  | cons r rs ih =>
      simp only [List.foldl_cons, List.map_cons, ih, addAFile,
        List.append_assoc, List.cons_append, List.nil_append]

theorem buildParticle_masses (r : RawRecord) (rs : List RawRecord) :
    (buildParticle r rs).masses = (r :: rs).map RawRecord.mass := by
  simp [buildParticle, foldl_addAFile_masses, mkParticle]

theorem buildParticle_charges (r : RawRecord) (rs : List RawRecord) :
    (buildParticle r rs).charges = (r :: rs).map RawRecord.charge := by
  simp [buildParticle, foldl_addAFile_charges, mkParticle]

theorem getConstant_error_of_two_ne {l : List ℚ} {a b : ℚ}
    (ha : a ∈ l) (hb : b ∈ l) (hne : a ≠ b) :
    getConstant l = .error (.valueError "") := by
  match l with
  | [] => cases ha
  | v :: vs =>
      have hall : vs.all (fun e => decide (e = v)) = false := by
        by_contra hcon
        have htrue : vs.all (fun e => decide (e = v)) = true := by
          cases h : vs.all (fun e => decide (e = v)) with
          | false => exact absurd h hcon
          | true => rfl
        have hconst : ∀ e ∈ v :: vs, e = v := by
          intro e he
          rcases List.mem_cons.mp he with rfl | hmem
          · rfl
          · exact of_decide_eq_true (List.all_eq_true.mp htrue e hmem)
        exact hne ((hconst a ha).trans (hconst b hb).symm)
      simp [getConstant, hall]

theorem getConstant_cons_cases (v : ℚ) (vs : List ℚ) :
    getConstant (v :: vs) = .ok v ∨
      getConstant (v :: vs) = .error (.valueError "") := by
  cases h : vs.all (fun e => decide (e = v)) with
  | true => left; simp [getConstant, h]
  | false => right; simp [getConstant, h]

/-- C1: code evaluation at a failing input.  `Particle.finalize` never
produces the claimed time-sorted record: `_some_values_to_array` executes
`self.time = np.array(self.time)`, but only the private `self._time` was ever
assigned, so the read of `self.time` raises AttributeError for every particle
— here two in-order-insensitive records of particle 7 with constant mass and
charge. -/
theorem finalize_crashes_reading_time_attribute :
    finalize (addAFile (mkParticle sampleRecordA) sampleRecordB) =
      .error (.attributeError "time") := rfl

/-- C3 counterexample: a particle (id 7) whose two records carry masses 1 and
2 makes `finalize` raise a bare `ValueError` whose message is the empty
string; the particle's id ("7") therefore does not occur in the message,
contradicting the claim that the raised error's message contains the id. -/
theorem finalize_error_message_lacks_particle_id :
    finalize (buildParticle sampleRecordA [sampleRecordBadMass]) =
        .error (.valueError "") ∧
      ¬ List.IsInfix
          (toString (buildParticle sampleRecordA
            [sampleRecordBadMass]).particleId).toList
          (String.toList "") := by
  refine ⟨rfl, ?_⟩
  intro h
  have h1 := h.sublist.length_le
  have h2 : (toString (buildParticle sampleRecordA
      [sampleRecordBadMass]).particleId).toList.length = 1 := rfl
  have h3 : (String.toList "").length = 0 := rfl
  omega

/-- C3 (amended): for every particle assembled from records that carry two
different mass values or two different charge values, `finalize()` raises a
data-integrity error (a bare `ValueError`), but the error carries an empty
message that does not contain the particle's id. -/
theorem finalize_raises_on_nonconstant_mass_or_charge
    (r : RawRecord) (rs : List RawRecord)
    (h : (∃ a ∈ r :: rs, ∃ b ∈ r :: rs, a.mass ≠ b.mass) ∨
         (∃ a ∈ r :: rs, ∃ b ∈ r :: rs, a.charge ≠ b.charge)) :
    finalize (buildParticle r rs) = .error (.valueError "") := by
  rcases h with ⟨a, ha, b, hb, hne⟩ | ⟨a, ha, b, hb, hne⟩
  · have herr : getConstant ((buildParticle r rs).masses) =
        .error (.valueError "") := by
      rw [buildParticle_masses]
      exact getConstant_error_of_two_ne (List.mem_map_of_mem _ ha)
        (List.mem_map_of_mem _ hb) hne
    unfold finalize
    rw [herr, except_bind_err]
  · have herrc : getConstant ((buildParticle r rs).charges) =
        .error (.valueError "") := by
      rw [buildParticle_charges]
      exact getConstant_error_of_two_ne (List.mem_map_of_mem _ ha)
        (List.mem_map_of_mem _ hb) hne
    have hm : getConstant ((buildParticle r rs).masses) = .ok r.mass ∨
        getConstant ((buildParticle r rs).masses) =
          .error (.valueError "") := by
      rw [buildParticle_masses]
      exact getConstant_cons_cases r.mass (rs.map RawRecord.mass)
    rcases hm with hm | hm
    · unfold finalize
      rw [hm, except_bind_ok, herrc, except_bind_err]
    · unfold finalize
      rw [hm, except_bind_err]

/-- C3 witness: at two concrete records of particle 7 with masses 1 and 2,
the amended theorem applies and the finalization error is the bare
`ValueError`. -/
theorem finalize_raises_witness :
    finalize (buildParticle sampleRecordA [sampleRecordBadMass]) =
      .error (.valueError "") :=
  finalize_raises_on_nonconstant_mass_or_charge sampleRecordA
    [sampleRecordBadMass]
    (Or.inl ⟨sampleRecordA, by simp,
      sampleRecordBadMass, by simp, by norm_num [sampleRecordA, sampleRecordBadMass]⟩)

/-- C4: code evaluation at the failing input.  Building a `ParticleMonitor`
from an empty folder (no records) reaches the unguarded
`max([part.time[-1] for part in self.values()])` with an empty list and
propagates `ValueError: max() arg is an empty sequence` — not a distinct
insufficient-data error, and no zero-particle collection is returned. -/
theorem particle_monitor_empty_folder_value_error
    (extra : FinalizedParticle → Except PyError Unit) :
    mkParticleMonitor extra [] =
      .error (.valueError "max() arg is an empty sequence") := rfl

theorem finishCollision_wf (warn : Bool) (qs : List (Vec3 × Vec3))
    (res : List Vec3 × List Nat) (hlen : res.1.length = res.2.length) :
    ∃ out, finishCollision warn qs res = .ok out ∧ out.queries = qs := by
  match res with
  | ([], []) => cases warn <;> exact ⟨_, rfl, rfl⟩
  | ([], c :: cs) => simp at hlen
  | ([pt], []) => simp at hlen
  | ([pt], c :: cs) => cases warn <;> exact ⟨_, rfl, rfl⟩
  | (pt1 :: pt2 :: rest, []) => simp at hlen
  | (pt1 :: pt2 :: rest, c :: cs) => cases warn <;> exact ⟨_, rfl, rfl⟩

/-- C2 counterexample: a particle that is not alive at end, has exactly 2 raw
recorded positions and whose primary segment (last known position (1,0,0) to
last extrapolated position (2,0,0)) yields zero intersections: the claim says
`find_collision` retries with the segment from the second-to-last to the last
recorded position ((0,0,0) to (1,0,0)), but the code returns after the single
primary query (`if self.pos.shape[0] <= 2: return`). -/
theorem find_collision_no_retry_with_two_positions :
    findCollision (fun _ _ => ([], [])) true
        ⟨[⟨0, 0, 0⟩, ⟨1, 0, 0⟩], false, some [⟨2, 0, 0⟩], 7⟩ =
      .ok ⟨[], [], [(⟨1, 0, 0⟩, ⟨2, 0, 0⟩)]⟩ ∧
    ((⟨0, 0, 0⟩, ⟨1, 0, 0⟩) : Vec3 × Vec3) ∉
      [((⟨1, 0, 0⟩, ⟨2, 0, 0⟩) : Vec3 × Vec3)] := by
  exact ⟨rfl, by decide⟩

/-- C2 (amended): for every particle that is not alive at end, whose primary
segment (last known position to last extrapolated position) yields zero
intersections with the mesh, and which has at least 3 raw recorded positions,
`find_collision` retries the intersection using the segment from the
second-to-last recorded position to the last recorded position (with exactly
2 recorded positions it returns without retrying). -/
theorem find_collision_fallback_needs_three_positions
    (intersect : Vec3 → Vec3 → List Vec3 × List Nat) (warn : Bool)
    (p : TrackedParticle) (ep : List Vec3)
    (halive : p.aliveAtEnd = false)
    (hlen : 3 ≤ p.pos.length)
    (hep : p.extrapolatedPos = some ep)
    (hepne : ep ≠ [])
    (hprimary : intersect (p.pos.getLastD Vec3.zero) (ep.getLastD Vec3.zero) =
      ([], []))
    (hwf : ∀ a b, ((intersect a b).1).length = ((intersect a b).2).length) :
    ∃ out, findCollision intersect warn p = .ok out ∧
      out.queries = [(p.pos.getLastD Vec3.zero, ep.getLastD Vec3.zero),
        (p.pos.getD (p.pos.length - 2) Vec3.zero,
          p.pos.getLastD Vec3.zero)] := by
  have hpos : p.pos ≠ [] := by
    intro hnil
    rw [hnil] at hlen
    simp at hlen
  have hx : p.pos.getLast? = some (p.pos.getLast hpos) :=
    List.getLast?_eq_getLast_of_ne_nil hpos
  have he : ep.getLast? = some (ep.getLast hepne) :=
    List.getLast?_eq_getLast_of_ne_nil hepne
  have hxD : p.pos.getLastD Vec3.zero = p.pos.getLast hpos := by
    rw [List.getLastD_eq_getLast?, hx]
    rfl
  have heD : ep.getLastD Vec3.zero = ep.getLast hepne := by
    rw [List.getLastD_eq_getLast?, he]
    rfl
  rw [hxD, heD] at hprimary ⊢
  have h1 : ¬ p.pos.length ≤ 1 := by omega
  have h2 : ¬ p.pos.length ≤ 2 := by omega
  unfold findCollision
  rw [halive, hep]
  simp only [Bool.false_eq_true, if_false, h1, if_false, hx, he, hprimary,
    List.isEmpty_nil, if_true, h2, if_false]
  exact finishCollision_wf warn _ _ (hwf _ _)

/-- C2 witness: a concrete 3-position particle, an intersection oracle that
always reports zero intersections (with matching array lengths): the amended
theorem applies and the two queried segments are the primary one and the
(pos[-2], pos[-1]) fallback. -/
theorem find_collision_fallback_witness :
    ∃ out, findCollision (fun _ _ => ([], [])) true
        ⟨[⟨0, 0, 0⟩, ⟨1, 0, 0⟩, ⟨3, 0, 0⟩], false, some [⟨2, 0, 0⟩], 7⟩ =
        .ok out ∧
      out.queries =
        [(List.getLastD [⟨0, 0, 0⟩, ⟨1, 0, 0⟩, ⟨3, 0, 0⟩] Vec3.zero,
          List.getLastD [⟨2, 0, 0⟩] Vec3.zero),
         (List.getD [⟨0, 0, 0⟩, ⟨1, 0, 0⟩, ⟨3, 0, 0⟩]
            ((List.length [⟨0, 0, 0⟩, ⟨1, 0, 0⟩, (⟨3, 0, 0⟩ : Vec3)]) - 2)
            Vec3.zero,
          List.getLastD [⟨0, 0, 0⟩, ⟨1, 0, 0⟩, ⟨3, 0, 0⟩] Vec3.zero)] :=
  find_collision_fallback_needs_three_positions (fun _ _ => ([], [])) true
    ⟨[⟨0, 0, 0⟩, ⟨1, 0, 0⟩, ⟨3, 0, 0⟩], false, some [⟨2, 0, 0⟩], 7⟩
    [⟨2, 0, 0⟩] rfl (by decide) rfl (by decide) rfl (fun a b => rfl)

theorem filter_range_eq_nil (p : Nat → Bool) (n : Nat)
    (h : ∀ i, i < n → p i = false) : (List.range n).filter p = [] := by
  rw [List.filter_eq_nil_iff]
  intro a ha
  simp [h a (List.mem_range.mp ha)]

theorem filter_range_cons (p : Nat → Bool) (n k : Nat) (hk : k < n)
    (hpk : p k = true) (hj : ∀ j, j < k → p j = false) :
    ∃ rest, (List.range n).filter p = k :: rest := by
  induction n with
  | zero => omega
  | succ m ih =>
      rw [List.range_succ, List.filter_append]
      by_cases hkm : k < m
      · obtain ⟨rest, hr⟩ := ih hkm
        exact ⟨rest ++ [m].filter p, by rw [hr]; simp⟩
      · have hkeq : k = m := by omega
        subst hkeq
        rw [filter_range_eq_nil p k hj]
        simp [hpk]

/-- C6: for a Simulation Result constructed with `trim_trailing=True`, if the
population has a first zero sample at index k (all earlier samples nonzero)
then the stored arrays are exactly the prefixes of length k of the inputs;
if the population never reaches zero the arrays are unchanged. -/
theorem trim_trailing_cuts_at_first_zero
    (time population : List ℚ) (hlen : time.length = population.length) :
    (∀ k, k < population.length → population.getD k 0 = 0 →
      (∀ j, j < k → population.getD j 0 ≠ 0) →
      mkSimulationResults time population true =
        .ok ⟨time.take k, population.take k⟩) ∧
    ((∀ q ∈ population, q ≠ 0) →
      mkSimulationResults time population true = .ok ⟨time, population⟩) := by
  constructor
  · intro k hk hzero hbefore
    obtain ⟨rest, hr⟩ :=
      filter_range_cons (fun i => decide (population.getD i 0 = 0))
        population.length k hk (decide_eq_true hzero)
        (fun j hj => decide_eq_false (hbefore j hj))
    simp only [mkSimulationResults, hlen, if_true, trimTrailing, hr]
  · intro hnz
    have hnil : (List.range population.length).filter
        (fun i => decide (population.getD i 0 = 0)) = [] := by
      apply filter_range_eq_nil
      intro i hi
      have hmem : population.getD i 0 ∈ population := by
        have hgd : population.getD i 0 = population[i] := by
          simp [List.getD_eq_getElem?_getD, List.getElem?_eq_getElem hi]
        rw [hgd]
        exact List.getElem_mem hi
      exact decide_eq_false (hnz _ hmem)
    simp only [mkSimulationResults, hlen, if_true, trimTrailing, hnil]

/-- C6 witness: with population [5, 0, 7, 0] the trimmed result is the prefix
before the first zero (index 1); with never-zero population [5, 6] the arrays
are unchanged. -/
theorem trim_trailing_witness :
    mkSimulationResults [1, 2, 3, 4] [5, 0, 7, 0] true = .ok ⟨[1], [5]⟩ ∧
    mkSimulationResults [8, 9] [5, 6] true = .ok ⟨[8, 9], [5, 6]⟩ := by
  constructor
  · exact (trim_trailing_cuts_at_first_zero [1, 2, 3, 4] [5, 0, 7, 0] rfl).1
      1 (by norm_num) (by decide)
      (by intro j hj; have hj0 : j = 0 := by omega
          subst hj0; decide)
  · exact (trim_trailing_cuts_at_first_zero [8, 9] [5, 6] rfl).2 (by decide)

/-- C7: constructing a Simulation Result with time and population sequences
of different lengths raises the shape-mismatch error, and with equal-length
sequences the construction succeeds (no error). -/
theorem shape_mismatch_check (time population : List ℚ) (trimFlag : Bool) :
    (time.length ≠ population.length →
      mkSimulationResults time population trimFlag =
        .error (.shapeMismatch time.length population.length)) ∧
    (time.length = population.length →
      ∃ r, mkSimulationResults time population trimFlag = .ok r) := by
  constructor
  · intro hne
    simp [mkSimulationResults, hne]
  · intro heq
    unfold mkSimulationResults
    rw [if_pos heq]
    cases trimFlag
    · exact ⟨_, rfl⟩
    · exact ⟨_, rfl⟩

/-- C7 witness: length-2 time with length-1 population raises the
shape-mismatch error; equal lengths construct successfully. -/
theorem shape_mismatch_witness :
    mkSimulationResults [1, 2] [3] true = .error (.shapeMismatch 2 1) ∧
    ∃ r, mkSimulationResults [5] [6] false = .ok r := by
  constructor
  · exact (shape_mismatch_check [1, 2] [3] true).1 (by norm_num)
  · exact (shape_mismatch_check [5] [6] false).2 rfl

/-- C8: with skip-on-obvious enabled, every input whose final population
sample is below the threshold 10 (in particular a constant flat population
below it) makes `_fit_single` return the no-fit result — parameters `None`,
modelled curve filled with NaN except the time column — without raising,
whatever the optimizer, smoothing, log model and other options are. -/
theorem fit_skip_obvious_returns_no_fit
    (curveFit : List (ℚ × ℚ) → ℚ × ℚ → Option (ℚ × ℚ))
    (smoothLog : List ℚ → Nat → List ℚ) (logQ expQ : ℚ → ℚ)
    (data : List (ℚ × ℚ)) (period fittingRange : ℚ) (runningMean : Bool)
    (lastRow : ℚ × ℚ) (hlast : data.getLast? = some lastRow)
    (hlow : lastRow.2 < 10) :
    fitSingle curveFit smoothLog logQ expQ data period fittingRange
        runningMean true =
      .ok ⟨data.map (fun r => (r.1, none)), none, none⟩ := by
  unfold fitSingle
  rw [hlast]
  simp [hlow]

/-- C8 witness: a flat population of value 5 (below the threshold) at two
time samples, with a would-be-diverging optimizer: the fit is skipped and the
no-fit result returned. -/
theorem fit_skip_obvious_witness :
    fitSingle (fun _ _ => none) (fun l _ => l) id id
        [((0 : ℚ), (5 : ℚ)), (1, 5)] 1 1 true true =
      .ok ⟨[(0, none), (1, none)], none, none⟩ :=
  fit_skip_obvious_returns_no_fit (fun _ _ => none) (fun l _ => l) id id
    [((0 : ℚ), (5 : ℚ)), (1, 5)] 1 1 true (1, 5) rfl (by norm_num)

theorem lastNonzeroIdx_lt_length (arr : List ℚ) (k : Nat)
    (h : lastNonzeroIdx arr = some k) : k < arr.length := by
  unfold lastNonzeroIdx at h
  have hmem := List.mem_of_getLast?_eq_some h
  exact List.mem_range.mp (List.mem_of_mem_filter hmem)

theorem dataToFit_head_time (smoothLog : List ℚ → Nat → List ℚ)
    (hsm : ∀ l n, (smoothLog l n).length = l.length)
    (logQ : ℚ → ℚ) (runningMean : Bool) (x : ℚ × ℚ) (ws : List (ℚ × ℚ))
    (iWidth : Nat) :
    ∃ y rest, (if runningMean then
        List.zip (((x :: ws).map (fun r => (r.1, logQ r.2))).map
            (fun r => r.1))
          (smoothLog (((x :: ws).map (fun r => (r.1, logQ r.2))).map
            (fun r => r.2)) iWidth)
      else (x :: ws).map (fun r => (r.1, logQ r.2))) = (x.1, y) :: rest := by
  cases runningMean with
  | false => exact ⟨logQ x.2, ws.map (fun r => (r.1, logQ r.2)), by simp⟩
  | true =>
      obtain ⟨s0, ss, hs⟩ : ∃ s0 ss,
          smoothLog (((x :: ws).map (fun r => (r.1, logQ r.2))).map
            (fun r => r.2)) iWidth = s0 :: ss := by
        cases hcase : smoothLog (((x :: ws).map (fun r => (r.1, logQ r.2))).map
            (fun r => r.2)) iWidth with
        | nil =>
            exfalso
            have hl := hsm (((x :: ws).map (fun r => (r.1, logQ r.2))).map
              (fun r => r.2)) iWidth
            rw [hcase] at hl
            simp at hl
        | cons a b => exact ⟨a, b, rfl⟩
      refine ⟨s0,
        List.zip ((ws.map (fun r => (r.1, logQ r.2))).map (fun r => r.1)) ss,
        ?_⟩
      rw [hs]
      simp

/-- C5 counterexample: for the data [(0, 20), (1, 30)] with fitting range 1
and no smoothing, the fit window starts at index 0.  The code passes as
initial N0 guess `data_to_fit[0, 0]` — the first TIME sample (0), clamped up
to the lower bound 1e-10 — whereas the claim's value, the first sample's
population clamped to the bound, is 20. -/
theorem fit_initial_n0_is_time_not_population :
    Except.map (fun r => r.p0)
        (fitSingle (fun _ _ => none) (fun l _ => l) id id
          [((0 : ℚ), (20 : ℚ)), (1, 30)] 1 1 false true) =
      .ok (some (1 / 10 ^ 10, -9)) ∧
    specInitialN0 [((0 : ℚ), (20 : ℚ)), (1, 30)] 1 = some 20 ∧
    ((1 : ℚ) / 10 ^ 10) ≠ 20 := by
  refine ⟨rfl, rfl, by norm_num⟩

/-- C5 (amended): the initial guess for N0 passed to the bounded optimizer
equals the first TIME sample of the fit window (`data_to_fit[0, 0]`, the time
at the sample index nearest `t_start`), clamped to the lower bound 1e-10 if
below it; the initial guess for alpha is the constant -9. -/
theorem fit_initial_guess_is_window_first_time
    (curveFit : List (ℚ × ℚ) → ℚ × ℚ → Option (ℚ × ℚ))
    (smoothLog : List ℚ → Nat → List ℚ) (logQ expQ : ℚ → ℚ)
    (data : List (ℚ × ℚ)) (period fittingRange : ℚ) (runningMean : Bool)
    (lastRow : ℚ × ℚ) (hlast : data.getLast? = some lastRow)
    (hskip : ¬ lastRow.2 < 10)
    (idxEnd : Nat)
    (hend : lastNonzeroIdx (data.map (fun r => r.2)) = some idxEnd)
    (hstart : argminAbs (data.map (fun r => r.1))
        ((data.getD idxEnd (0, 0)).1 - fittingRange) ≤ idxEnd)
    (hsm : ∀ l n, (smoothLog l n).length = l.length) :
    Except.map (fun r => r.p0)
        (fitSingle curveFit smoothLog logQ expQ data period fittingRange
          runningMean true) =
      .ok (some (clampN0 ((data.getD (argminAbs (data.map (fun r => r.1))
        ((data.getD idxEnd (0, 0)).1 - fittingRange)) (0, 0)).1), -9)) := by
  have hlenmap : (data.map (fun r => r.2)).length = data.length :=
    List.length_map data _
  have hendlt : idxEnd < data.length := by
    have := lastNonzeroIdx_lt_length _ _ hend
    omega
  set i := argminAbs (data.map (fun r => r.1))
    ((data.getD idxEnd (0, 0)).1 - fittingRange) with hidef
  have hilt : i < data.length := lt_of_le_of_lt hstart hendlt
  have hgd : data.getD i (0, 0) = data[i] := by
    simp [List.getD_eq_getElem?_getD, List.getElem?_eq_getElem hilt]
  have hwin : (data.drop i).take (idxEnd + 1 - i) =
      data[i] :: ((data.drop (i + 1)).take (idxEnd - i)) := by
    rw [List.drop_eq_getElem_cons hilt,
      show idxEnd + 1 - i = (idxEnd - i) + 1 by omega, List.take_succ_cons]
  obtain ⟨y, rest, hhead⟩ := dataToFit_head_time smoothLog hsm logQ
    runningMean data[i] ((data.drop (i + 1)).take (idxEnd - i))
    (argminAbs (data.map (fun r => r.1)) period)
  unfold fitSingle
  rw [hlast]
  simp only [Bool.true_and, decide_eq_false hskip, Bool.false_eq_true,
    if_false, hend]
  rw [← hidef, hwin, hhead]
  simp only [Except.map]
  rw [hgd]

/-- C5 witness: at the concrete data [(0, 20), (1, 30)] with fitting range 1
and smoothing on (with a length-preserving smoother), the amended theorem
applies: the N0 guess passed to the optimizer is the clamp of the window's
first time sample. -/
theorem fit_initial_guess_witness :
    Except.map (fun r => r.p0)
        (fitSingle (fun _ _ => none) (fun l _ => l) id id
          [((0 : ℚ), (20 : ℚ)), (1, 30)] 1 1 true true) =
      .ok (some (clampN0 (([((0 : ℚ), (20 : ℚ)), (1, 30)].getD
        (argminAbs ([((0 : ℚ), (20 : ℚ)), (1, 30)].map (fun r => r.1))
          (([((0 : ℚ), (20 : ℚ)), (1, 30)].getD 1 (0, 0)).1 - 1)) (0, 0)).1),
        -9)) :=
  fit_initial_guess_is_window_first_time (fun _ _ => none) (fun l _ => l)
    id id [((0 : ℚ), (20 : ℚ)), (1, 30)] 1 1 true (1, 30) rfl (by norm_num)
    1 rfl (by decide) (fun l n => rfl)

/-- C9: for a particle with exactly 2 recorded samples, extrapolation
computes the positions by the constant-velocity model — extrapolated position
at offset dt from the last time is the last position plus
(adimensional momentum times the speed of light in mm/ns) times dt, at the
two offsets 0 and 10 time steps — while momentum extrapolation (which needs
3 samples) is skipped and the extrapolated momentum stays NaN; with 1 or 0
samples nothing is extrapolated and all three arrays stay NaN. -/
theorem extrapolate_two_samples_position_only
    (polyfit : List ℚ → List Vec3 → Nat → List ℚ → List Vec3)
    (t0 t1 : ℚ) (p0 p1 m0 m1 : Vec3) :
    extrapolateOneStep polyfit [t0, t1] [p0, p1] [m0, m1] =
      .ok ⟨[some t1, some (t1 + 10 * (t1 - t0))],
           [some (Vec3.add p1 (Vec3.smul 0 (adimMomentumToSpeedMmPerNs m1))),
            some (Vec3.add p1 (Vec3.smul (10 * (t1 - t0))
              (adimMomentumToSpeedMmPerNs m1)))],
           [none, none]⟩ ∧
    extrapolateOneStep polyfit [t0] [p0] [m0] =
      .ok ⟨[none, none], [none, none], [none, none]⟩ ∧
    extrapolateOneStep polyfit [] [] [] =
      .ok ⟨[none, none], [none, none], [none, none]⟩ := by
  refine ⟨?_, rfl, rfl⟩
  unfold extrapolateOneStep
  norm_num [linspace, extrapolatePosition, List.range_succ, Vec3.add,
    Vec3.smul, Vec3.mk.injEq]

theorem mapM_loop_energy (l : List MonitorParticle) (acc : List ℚ)
    (h : ∀ p ∈ l, p.mom ≠ []) :
    List.mapM.loop (fun p => collisionEnergy p false) l acc =
      .ok (acc.reverse ++ l.map (fun p =>
        adimMomentumToEV (p.mom.getLastD Vec3.zero) p.massEV)) := by
  induction l generalizing acc with
  | nil =>
      simp only [List.mapM.loop, List.map_nil, List.append_nil]
      rfl
  | cons q qs ih =>
      have hq : q.mom ≠ [] := h q (by simp)
      have hlast : q.mom.getLast? = some (q.mom.getLast hq) :=
        List.getLast?_eq_getLast_of_ne_nil hq
      have hD : q.mom.getLastD Vec3.zero = q.mom.getLast hq := by
        rw [List.getLastD_eq_getLast?, hlast]
        rfl
      have hce : collisionEnergy q false =
          .ok (adimMomentumToEV (q.mom.getLastD Vec3.zero) q.massEV) := by
        unfold collisionEnergy
        rw [hD, hlast]
        rfl
      show (collisionEnergy q false >>= fun b =>
        List.mapM.loop (fun p => collisionEnergy p false) qs (b :: acc)) = _
      rw [hce, except_bind_ok, ih _ (fun p hp => h p (List.mem_cons_of_mem _ hp))]
      simp

/-- C10: whenever the subset selected by `collision_energies` (source-id
filter, then drop particles alive at end) is non-empty, the call with
`extrapolation=True` (the default) raises NotImplementedError — because
`Particle.collision_energy` raises whenever extrapolation is requested —
while the call with `extrapolation=False` returns, for each particle of the
subset in order, the energy computed from its last momentum sample and its
mass. -/
theorem collision_energies_default_raises
    (parts : List MonitorParticle) (sourceId : Option Int)
    (h1 : energySubset parts sourceId true ≠ [])
    (h2 : ∀ p ∈ energySubset parts sourceId true, p.mom ≠ []) :
    (∃ msg, collisionEnergies parts sourceId true true =
      .error (.notImplementedError msg)) ∧
    collisionEnergies parts sourceId false true =
      .ok ((energySubset parts sourceId true).map (fun p =>
        adimMomentumToEV (p.mom.getLastD Vec3.zero) p.massEV)) := by
  constructor
  · obtain ⟨q, qs, hsub⟩ := List.exists_cons_of_ne_nil h1
    refine ⟨"TODO: extrapolation of on last time  steps for better precision.",
      ?_⟩
    unfold collisionEnergies List.mapM
    rw [hsub]
    rfl
  · unfold collisionEnergies List.mapM
    rw [mapM_loop_energy _ _ h2]
    simp

/-- C10 witness: one collided particle with a single momentum sample
(0, 0, 2) and mass 1 eV: the default call raises NotImplementedError and the
non-extrapolating call returns the energy 0.5 * |mom|^2 * mass = 2 eV. -/
theorem collision_energies_witness :
    (∃ msg, collisionEnergies [⟨[⟨0, 0, 2⟩], 1, 0, false⟩] none true true =
      .error (.notImplementedError msg)) ∧
    collisionEnergies [⟨[⟨0, 0, 2⟩], 1, 0, false⟩] none false true =
      .ok [adimMomentumToEV
        ((List.getLastD [(⟨0, 0, 2⟩ : Vec3)]) Vec3.zero) 1] :=
  collision_energies_default_raises [⟨[⟨0, 0, 2⟩], 1, 0, false⟩] none
    (by decide) (by decide)

end Simultipac
